import Mathlib

/-!
# Snapshot debounce coordinator of `main.go`

A shallow embedding of the scheduler loop, the channel traffic between the
scheduler and the snapshot capture goroutine, and the startup recovery code of
`src/main.go`, followed by the properties proved about them.

Channels are modelled by the operations the main goroutine performs on them:
`Op.send n` is `snapshotCh <- n` and `Op.recv` is `<-savedSnapshotCh`. A
blocking receive outside the `select` completes only if the capture goroutine
gets past its dump and write calls; their results are inputs (`Capture`).
-/

namespace AnvilPersistence

/-! ## Data model -/

/-- Result of `header.Number.Uint64()`: the low 64 bits of the block number. -/
def Uint64 (x : Nat) : Nat := x % 2 ^ 64

/-- The loop-local variables of `main` (`src/main.go` lines 172-176). -/
structure Sched where
  snapshot : Bool
  pendingSnapshot : Nat
  latestBlockNumber : Nat
deriving DecidableEq, Repr

/-- Zero values of the three variables when the loop is entered. -/
def Sched.init : Sched :=
  { snapshot := false, pendingSnapshot := 0, latestBlockNumber := 0 }

/-- What the snapshot capture goroutine meets while serving one request (lines
112-130): `err != nil` of the `anvil_dumpState` call and of `os.WriteFile`. -/
structure Capture where
  dumpErr : Bool
  writeErr : Bool
deriving DecidableEq, Repr

/-- The goroutine panics on a dump error, then on a write error, and only
otherwise sends on `savedSnapshotCh` (lines 116-130). -/
def Capture.completes (c : Capture) : Bool :=
  if c.dumpErr then false
  else if c.writeErr then false
  else true

/-- The four cases of the `select` statement (lines 180-214). `newHead number`
carries `header.Number`; `subErr err` carries the subscription error;
`done inFlight final` carries what the goroutine meets in the two captures the
shutdown branch waits for: the one in flight (awaited only when `snapshot` is
true) and the final one. -/
inductive Event where
  | newHead (number : Nat)
  | saved
  | subErr (err : String)
  | done (inFlight final : Capture)
deriving DecidableEq, Repr

/-- A channel operation of the main goroutine: `send n` is `snapshotCh <- n`,
`recv` is `<-savedSnapshotCh`. -/
inductive Op where
  | send (blockNumber : Nat)
  | recv
deriving DecidableEq, Repr

/-- How far the loop got: still running, left by `return`, or ended by a panic
of the snapshot capture goroutine while the main goroutine waited for it. -/
inductive Status where
  | running
  | returned
  | crashed
deriving DecidableEq, Repr

/-- Outcome of one loop iteration: the new variables, the channel operations
performed in order, and the status after them. -/
structure Iter where
  state : Sched
  ops : List Op
  status : Status
deriving DecidableEq, Repr

/-! ## The scheduler loop -/

/-- One iteration of the `for { select { ... } }` loop (lines 179-215). -/
def handle (s : Sched) : Event → Iter
  | .newHead number =>
    let latestBlockNumber := Uint64 number
    if s.snapshot then
      { state := { s with latestBlockNumber := latestBlockNumber,
                          pendingSnapshot := latestBlockNumber },
        ops := [], status := .running }
    else
      { state := { snapshot := true, pendingSnapshot := 0,
                   latestBlockNumber := latestBlockNumber },
        ops := [.send latestBlockNumber], status := .running }
  | .saved =>
    if s.pendingSnapshot = 0 then
      { state := { s with snapshot := false }, ops := [.recv], status := .running }
    else
      { state := { s with pendingSnapshot := 0 },
        ops := [.recv, .send s.pendingSnapshot], status := .running }
  | .subErr _ => { state := s, ops := [], status := .running }
  | .done inFlight final =>
    if s.snapshot && !inFlight.completes then
      -- line 206 never receives: the goroutine panicked in the capture in flight
      { state := s, ops := [], status := .crashed }
    else
      let drained : List Op := if s.snapshot then [.recv] else []
      if final.completes then
        { state := s, ops := drained ++ [.send s.latestBlockNumber, .recv],
          status := .returned }
      else
        -- line 211 never receives: the goroutine panicked in the final capture
        { state := s, ops := drained ++ [.send s.latestBlockNumber], status := .crashed }

/-- The loop run on a finite list of events: iterations are executed in order
while the status is `running`; events after a returning or crashing iteration
are never handled. -/
def loop : Sched → List Event → Iter
  | s, [] => { state := s, ops := [], status := .running }
  | s, e :: es =>
    let r := handle s e
    if r.status = .running then
      let r2 := loop r.state es
      { r2 with ops := r.ops ++ r2.ops }
    else r

/-! ## Outstanding requests -/

/-- Effect of a channel operation on the number of outstanding requests (sent
on `snapshotCh`, not yet acknowledged on `savedSnapshotCh`). -/
def Op.after (c : Nat) : Op → Nat
  | .send _ => c + 1
  | .recv => c - 1

/-- Number of outstanding requests after a list of operations. -/
def countAfter (c : Nat) (ops : List Op) : Nat := ops.foldl Op.after c

/-- Every operation paired with the number of outstanding requests just before it. -/
def annotate : Nat → List Op → List (Nat × Op)
  | _, [] => []
  | c, op :: rest => (c, op) :: annotate (op.after c) rest

/-- The request numbers submitted on `snapshotCh`, in order. -/
def requests : List Op → List Nat
  | [] => []
  | .send n :: rest => n :: requests rest
  | .recv :: rest => requests rest

/-- Number of completions consumed from `savedSnapshotCh`. -/
def completions (ops : List Op) : Nat := ops.count Op.recv

/-- An event list is valid from variables `s` and `c` outstanding requests when
every worker completion is delivered while a request is outstanding. -/
def validEvents : Sched → Nat → List Event → Bool
  | _, _, [] => true
  | s, c, e :: es =>
    (match e with
      | .saved => decide (1 ≤ c)
      | _ => true) &&
    (let r := handle s e
     if r.status = .running then validEvents r.state (countAfter c r.ops) es else true)

/-- The variables and the outstanding count at the top of every loop iteration. -/
def iterations : Sched → Nat → List Event → List (Sched × Nat)
  | s, c, [] => [(s, c)]
  | s, c, e :: es =>
    (s, c) ::
      (let r := handle s e
       if r.status = .running then iterations r.state (countAfter c r.ops) es else [])

/-- The outstanding count matches the `snapshot` flag. -/
def CountInv (s : Sched) (c : Nat) : Prop := c = if s.snapshot then 1 else 0

/-- A send happens with no request outstanding, a receive with exactly one, and
the count is at most one before and after the operation. -/
def OpOk (p : Nat × Op) : Prop :=
  (∀ n, p.2 = Op.send n → p.1 = 0) ∧ (p.2 = Op.recv → p.1 = 1) ∧ p.1 ≤ 1 ∧ p.2.after p.1 ≤ 1

/-- The header numbers of the new-head events of a list, in order. -/
def heads : List Event → List Nat
  | [] => []
  | .newHead n :: es => n :: heads es
  | _ :: es => heads es

/-- Steady-state event lists: no shutdown, and every worker completion is
delivered while a capture is in flight (`snapshot = true`). -/
def steadyEvents : Sched → List Event → Bool
  | _, [] => true
  | s, e :: es =>
    (match e with
      | .saved => s.snapshot
      | .done _ _ => false
      | _ => true) && steadyEvents (handle s e).state es

/-- The pending marker, when set, belongs to an in-flight capture and equals
the latest block number. -/
def PendingInv (s : Sched) : Prop :=
  s.pendingSnapshot ≠ 0 → s.snapshot = true ∧ s.pendingSnapshot = s.latestBlockNumber

/-- History invariant of the steady state: `lastSent` is the most recent
request, `seen` tells whether a new-head event has been handled. -/
def HistInv (s : Sched) (lastSent : Option Nat) (seen : Bool) : Prop :=
  PendingInv s ∧
  (∀ x, lastSent = some x → x ≤ s.latestBlockNumber) ∧
  (s.snapshot = true → lastSent ≠ none) ∧
  (seen = true → s.pendingSnapshot = 0 → lastSent = some s.latestBlockNumber)

/-! ## Startup recovery -/

/-- Result of `os.ReadFile(anvilState)`: the bytes returned and `err != nil`. -/
structure ReadResult where
  data : List Nat
  err : Bool
deriving DecidableEq, Repr

/-- Result of `client.BlockNumber(ctx)`: the number returned and `err != nil`. -/
structure BlockNumberResult where
  blockNumber : Nat
  err : Bool
deriving DecidableEq, Repr

/-- Result of `c.Call(&result, "anvil_loadState", string(data))`: the value
stored in `result` and `err != nil`. -/
structure LoadResult where
  result : Bool
  err : Bool
deriving DecidableEq, Repr

/-- How the code before the loop ends: with a panic, or by entering the loop
with variables `s`; `ops` are the channel operations performed until then. -/
inductive Startup where
  | panicked (ops : List Op)
  | running (ops : List Op) (s : Sched)
deriving DecidableEq, Repr

/-- Outcome of lines 134-160: the channel operations performed and whether a
panic ended them. -/
structure Recovery where
  ops : List Op
  panicked : Bool
deriving DecidableEq, Repr

/-- Loading the saved state or priming (lines 134-160). The load call is made
only on the `else` branch and the block number is queried only on the `if`
branch; `priming` is what the goroutine meets in the priming capture, and the
receive of line 146 happens only if that capture completes. -/
def recover (read : ReadResult) (bn : BlockNumberResult) (load : LoadResult)
    (priming : Capture) : Recovery :=
  if read.data.length = 0 || read.err then
    if bn.err then { ops := [], panicked := true }
    else if priming.completes then
      { ops := [.send bn.blockNumber, .recv], panicked := false }
    else { ops := [.send bn.blockNumber], panicked := true }
  else
    if load.err then { ops := [], panicked := true }
    else if load.result then { ops := [], panicked := false }
    else { ops := [], panicked := true }

/-- Startup from the read of the state file to the first loop iteration (lines
134-176); `subscribeErr` is `err != nil` of `client.SubscribeNewHead`. -/
def startup (read : ReadResult) (bn : BlockNumberResult) (load : LoadResult)
    (priming : Capture) (subscribeErr : Bool) : Startup :=
  let r := recover read bn load priming
  if r.panicked then .panicked r.ops
  else if subscribeErr then .panicked r.ops
  else .running r.ops Sched.init

/-- The channel operations performed during startup. -/
def Startup.ops : Startup → List Op
  | .panicked ops => ops
  | .running ops _ => ops

/-- Whether startup ended in a panic. -/
def Startup.failed : Startup → Bool
  | .panicked _ => true
  | .running _ _ => false

/-! ## Reference machine of the transition table -/

/-- The three named states of the scheduler state machine of spec section 4.2. -/
inductive Phase where
  | Idle
  | Capturing
  | CapturingWithPending
deriving DecidableEq, Repr

/-- Scheduler state of the reference machine, written from spec sections 3 and
4.2: the named state and the fields `inFlight`, `pending` and `latestSeen`. -/
structure SchedulerState where
  phase : Phase
  inFlight : Bool
  pending : Option Nat
  latestSeen : Nat
deriving DecidableEq, Repr

/-- Events of the transition table other than the shutdown request. -/
inductive TableEvent where
  | ProgressEvent (n : Nat)
  | WorkerCompleted
  | SubscriptionError
deriving DecidableEq, Repr

/-- Initial state of the reference machine: `Idle`, nothing in flight, nothing
pending, `latestSeen = 0`. -/
def SchedulerState.initial : SchedulerState :=
  { phase := .Idle, inFlight := false, pending := none, latestSeen := 0 }

/-- The transition table of spec section 4.2, row by row: the next state and
the submitted snapshot requests; `none` where the table has no row. The field
`inFlight` is true exactly in the two capturing states. -/
def SchedulerState.transition (r : SchedulerState) :
    TableEvent → Option (SchedulerState × List Nat)
  | .ProgressEvent n =>
    match r.phase with
    | .Idle =>
      some ({ r with phase := .Capturing, inFlight := true, latestSeen := n }, [n])
    | .Capturing =>
      some ({ r with phase := .CapturingWithPending, latestSeen := n, pending := some n }, [])
    | .CapturingWithPending =>
      some ({ r with phase := .CapturingWithPending, latestSeen := n, pending := some n }, [])
  | .WorkerCompleted =>
    match r.phase with
    | .Idle => none
    | .Capturing => some ({ r with phase := .Idle, inFlight := false }, [])
    | .CapturingWithPending =>
      match r.pending with
      | none => none
      | some p => some ({ r with phase := .Capturing, pending := none }, [p])
  | .SubscriptionError => some (r, [])

/-- The reference machine run on a list of events, collecting the requests. -/
def SchedulerState.run : SchedulerState → List TableEvent → Option (SchedulerState × List Nat)
  | r, [] => some (r, [])
  | r, e :: es =>
    match r.transition e with
    | none => none
    | some (r1, out1) =>
      match SchedulerState.run r1 es with
      | none => none
      | some (r2, out2) => some (r2, out1 ++ out2)

/-- The table event a loop event stands for; the shutdown request has none here. -/
def Event.toTable : Event → Option TableEvent
  | .newHead n => some (.ProgressEvent n)
  | .saved => some .WorkerCompleted
  | .subErr _ => some .SubscriptionError
  | .done _ _ => none

/-- The relation between the loop variables and the reference machine. -/
def Related (s : Sched) (r : SchedulerState) : Prop :=
  r.latestSeen = s.latestBlockNumber ∧ r.inFlight = s.snapshot ∧
  match r.phase with
  | .Idle => s.snapshot = false ∧ r.pending = none
  | .Capturing => s.snapshot = true ∧ s.pendingSnapshot = 0 ∧ r.pending = none
  | .CapturingWithPending =>
    s.snapshot = true ∧ s.pendingSnapshot ≠ 0 ∧ r.pending = some s.pendingSnapshot

/-! ## Basic lemmas -/

theorem annotate_append (c : Nat) (a b : List Op) :
    annotate c (a ++ b) = annotate c a ++ annotate (countAfter c a) b := by
  induction a generalizing c with
  | nil => simp [annotate, countAfter]
  | cons op rest ih => simp [annotate, countAfter, ih]

theorem loop_cons_stopped (s : Sched) (e : Event) (es : List Event)
    (h : (handle s e).status ≠ Status.running) : loop s (e :: es) = handle s e := by
  simp [loop, h]

theorem loop_cons_ops (s : Sched) (e : Event) (es : List Event)
    (h : (handle s e).status = Status.running) :
    (loop s (e :: es)).ops = (handle s e).ops ++ (loop (handle s e).state es).ops := by
  simp [loop, h]

theorem loop_cons_state (s : Sched) (e : Event) (es : List Event)
    (h : (handle s e).status = Status.running) :
    (loop s (e :: es)).state = (loop (handle s e).state es).state := by
  simp [loop, h]

theorem loop_cons_status (s : Sched) (e : Event) (es : List Event)
    (h : (handle s e).status = Status.running) :
    (loop s (e :: es)).status = (loop (handle s e).state es).status := by
  simp [loop, h]

theorem iterations_cons (s : Sched) (c : Nat) (e : Event) (es : List Event)
    (h : (handle s e).status = Status.running) :
    iterations s c (e :: es) =
      (s, c) :: iterations (handle s e).state (countAfter c (handle s e).ops) es := by
  simp [iterations, h]

theorem countAfter_append (c : Nat) (a b : List Op) :
    countAfter c (a ++ b) = countAfter (countAfter c a) b := by
  simp [countAfter, List.foldl_append]

theorem handle_done_status (s : Sched) (inFlight final : Capture) :
    (handle s (Event.done inFlight final)).status ≠ Status.running := by
  cases hs : s.snapshot <;> cases hi : inFlight.completes <;> cases hf : final.completes <;>
    simp [handle, hs, hi, hf]

theorem handle_countInv (s : Sched) (c : Nat) (e : Event) (hc : CountInv s c)
    (he : e = Event.saved → 1 ≤ c) :
    (∀ p ∈ annotate c (handle s e).ops, OpOk p) ∧
    ((handle s e).status = Status.running →
      CountInv (handle s e).state (countAfter c (handle s e).ops)) := by
  unfold CountInv at hc ⊢
  cases e with
  | newHead n =>
    cases hs : s.snapshot <;> simp [hs] at hc <;> subst hc <;>
      simp [handle, hs, annotate, countAfter, OpOk, Op.after]
  | saved =>
    have h1 := he rfl
    cases hs : s.snapshot <;> simp [hs] at hc <;> subst hc
    · omega
    · by_cases hp : s.pendingSnapshot = 0 <;>
        simp [handle, hs, hp, annotate, countAfter, OpOk, Op.after]
  | subErr err =>
    simp [handle, annotate, countAfter]
    exact hc
  | done inFlight final =>
    refine ⟨?_, fun h => absurd h (handle_done_status s inFlight final)⟩
    cases hs : s.snapshot <;> simp [hs] at hc <;> subst hc <;>
      cases hi : inFlight.completes <;> cases hf : final.completes <;>
      simp [handle, hs, hi, hf, annotate, OpOk, Op.after]

theorem loop_countInv (evs : List Event) : ∀ (s : Sched) (c : Nat), CountInv s c →
    validEvents s c evs = true →
    (∀ p ∈ annotate c (loop s evs).ops, OpOk p) ∧
    (∀ q ∈ iterations s c evs, CountInv q.1 q.2) := by
  induction evs with
  | nil =>
    intro s c hc _
    simp [loop, annotate, iterations, hc]
  | cons e es ih =>
    intro s c hc hv
    have hsaved : e = Event.saved → 1 ≤ c := by
      intro he; subst he; simp [validEvents] at hv; exact hv.1
    obtain ⟨hops, hnext⟩ := handle_countInv s c e hc hsaved
    by_cases hr : (handle s e).status = Status.running
    · have hv2 : validEvents (handle s e).state (countAfter c (handle s e).ops) es = true := by
        simp [validEvents, hr] at hv
        exact hv.2
      obtain ⟨h1, h2⟩ := ih _ _ (hnext hr) hv2
      rw [loop_cons_ops s e es hr, iterations_cons s c e es hr, annotate_append]
      refine ⟨?_, ?_⟩
      · intro p hp
        rcases List.mem_append.mp hp with hp | hp
        · exact hops p hp
        · exact h1 p hp
      · intro q hq
        rcases List.mem_cons.mp hq with hq | hq
        · subst hq; exact hc
        · exact h2 q hq
    · rw [loop_cons_stopped s e es hr]
      refine ⟨hops, ?_⟩
      intro q hq
      simp [iterations, hr] at hq
      subst hq
      exact hc

theorem loop_append (a b : List Event) : ∀ s : Sched, (loop s a).status = Status.running →
    (loop s (a ++ b)).state = (loop (loop s a).state b).state ∧
    (loop s (a ++ b)).ops = (loop s a).ops ++ (loop (loop s a).state b).ops ∧
    (loop s (a ++ b)).status = (loop (loop s a).state b).status := by
  induction a with
  | nil => intro s _; simp [loop]
  | cons e es ih =>
    intro s h
    by_cases hr : (handle s e).status = Status.running
    · rw [loop_cons_status s e es hr] at h
      obtain ⟨h1, h2, h3⟩ := ih (handle s e).state h
      rw [List.cons_append, loop_cons_state s e _ hr, loop_cons_ops s e _ hr,
        loop_cons_status s e _ hr, loop_cons_state s e es hr, loop_cons_ops s e es hr]
      refine ⟨h1, ?_, h3⟩
      rw [h2, List.append_assoc]
    · rw [loop_cons_stopped s e es hr] at h
      exact absurd h hr

theorem loop_latest (evs : List Event) : ∀ s : Sched, (loop s evs).status = Status.running →
    (loop s evs).state.latestBlockNumber =
      ((heads evs).getLast?.map Uint64).getD s.latestBlockNumber := by
  induction evs with
  | nil => intro s _; simp [loop, heads]
  | cons e es ih =>
    intro s h
    by_cases hr : (handle s e).status = Status.running
    · rw [loop_cons_status s e es hr] at h
      rw [loop_cons_state s e es hr, ih _ h]
      cases e with
      | newHead n =>
        have hl : (handle s (Event.newHead n)).state.latestBlockNumber = Uint64 n := by
          cases hs : s.snapshot <;> simp [handle, hs]
        rw [hl]
        simp only [heads, List.getLast?_cons]
        cases (heads es).getLast? <;> simp
      | saved =>
        have hl : (handle s Event.saved).state.latestBlockNumber = s.latestBlockNumber := by
          by_cases hp : s.pendingSnapshot = 0 <;> simp [handle, hp]
        rw [hl]; simp [heads]
      | subErr err => simp [handle, heads]
      | done inFlight final => exact absurd hr (handle_done_status s inFlight final)
    · rw [loop_cons_stopped s e es hr] at h
      exact absurd h hr

theorem loop_final_count (evs : List Event) : ∀ (s : Sched) (c : Nat), CountInv s c →
    validEvents s c evs = true → (loop s evs).status = Status.running →
    CountInv (loop s evs).state (countAfter c (loop s evs).ops) := by
  induction evs with
  | nil => intro s c hc _ _; simpa [loop, countAfter] using hc
  | cons e es ih =>
    intro s c hc hv h
    have hsaved : e = Event.saved → 1 ≤ c := by
      intro he; subst he; simp [validEvents] at hv; exact hv.1
    by_cases hr : (handle s e).status = Status.running
    · have hv2 : validEvents (handle s e).state (countAfter c (handle s e).ops) es = true := by
        simp [validEvents, hr] at hv
        exact hv.2
      rw [loop_cons_status s e es hr] at h
      rw [loop_cons_state s e es hr, loop_cons_ops s e es hr, countAfter_append]
      exact ih _ _ ((handle_countInv s c e hc hsaved).2 hr) hv2 h
    · rw [loop_cons_stopped s e es hr] at h
      exact absurd h hr

theorem requests_append (a b : List Op) : requests (a ++ b) = requests a ++ requests b := by
  induction a with
  | nil => simp [requests]
  | cons op rest ih => cases op <;> simp [requests, ih]

theorem handle_done_state (s : Sched) (inFlight final : Capture) :
    (handle s (Event.done inFlight final)).state = s := by
  cases hs : s.snapshot <;> cases hi : inFlight.completes <;> cases hf : final.completes <;>
    simp [handle, hs, hi, hf]

theorem handle_pendingInv (s : Sched) (e : Event) (h : PendingInv s) :
    PendingInv (handle s e).state := by
  cases e with
  | newHead n => unfold PendingInv; cases hs : s.snapshot <;> simp [handle, hs]
  | saved =>
    unfold PendingInv at h ⊢
    by_cases hp : s.pendingSnapshot = 0
    · simp [handle, hp]
    · simp [handle, hp]
  | subErr err => simpa [handle] using h
  | done inFlight final => rw [handle_done_state]; exact h

theorem iterations_pendingInv (evs : List Event) : ∀ (s : Sched) (c : Nat), PendingInv s →
    ∀ q ∈ iterations s c evs, PendingInv q.1 := by
  induction evs with
  | nil => intro s c h q hq; simp [iterations] at hq; subst hq; exact h
  | cons e es ih =>
    intro s c h q hq
    by_cases hr : (handle s e).status = Status.running
    · rw [iterations_cons s c e es hr] at hq
      rcases List.mem_cons.mp hq with hq | hq
      · subst hq; exact h
      · exact ih _ _ (handle_pendingInv s e h) q hq
    · simp [iterations, hr] at hq; subst hq; exact h

theorem uint64_of_lt (n : Nat) (h : n < 2 ^ 64) : Uint64 n = n :=
  Nat.mod_eq_of_lt h

theorem loop_heads_in_flight (ns : List Nat) : ∀ s : Sched, s.snapshot = true →
    loop s (ns.map Event.newHead) =
      { state := { snapshot := true,
                   pendingSnapshot := (ns.getLast?.map Uint64).getD s.pendingSnapshot,
                   latestBlockNumber := (ns.getLast?.map Uint64).getD s.latestBlockNumber },
        ops := [], status := Status.running } := by
  induction ns with
  | nil => intro s hs; cases s; simp_all [loop]
  | cons n rest ih =>
    intro s hs
    have hh : handle s (Event.newHead n) =
        { state := { snapshot := true, pendingSnapshot := Uint64 n,
                     latestBlockNumber := Uint64 n },
          ops := [], status := Status.running } := by
      cases s; simp_all [handle]
    simp only [List.map_cons, loop, hh, if_true]
    rw [ih _ rfl]
    simp only [List.getLast?_cons, List.nil_append]
    cases rest.getLast? <;> simp

theorem heads_append (a b : List Event) : heads (a ++ b) = heads a ++ heads b := by
  induction a with
  | nil => simp [heads]
  | cons e es ih => cases e <;> simp [heads, ih]

theorem steadyEvents_prefix (a b : List Event) : ∀ s : Sched,
    steadyEvents s (a ++ b) = true → steadyEvents s a = true := by
  induction a with
  | nil => intro s _; simp [steadyEvents]
  | cons e es ih =>
    intro s h
    simp only [List.cons_append, steadyEvents, Bool.and_eq_true] at h ⊢
    exact ⟨h.1, ih _ h.2⟩

theorem steadyEvents_running (s : Sched) (e : Event) (es : List Event)
    (h : steadyEvents s (e :: es) = true) : (handle s e).status = Status.running := by
  cases e with
  | newHead n => cases hs : s.snapshot <;> simp [handle, hs]
  | saved => by_cases hp : s.pendingSnapshot = 0 <;> simp [handle, hp]
  | subErr err => rfl
  | done inFlight final => simp [steadyEvents] at h

theorem hist_step (s : Sched) (ls : Option Nat) (seen : Bool) (e : Event)
    (h : HistInv s ls seen) (hsaved : e = Event.saved → s.snapshot = true)
    (hdone : ∀ inFlight final, e ≠ Event.done inFlight final)
    (hhead : ∀ n, e = Event.newHead n → n < 2 ^ 64 ∧ s.latestBlockNumber ≤ n) :
    HistInv (handle s e).state ((requests (handle s e).ops).getLast?.or ls)
      (seen || !(heads [e]).isEmpty) := by
  obtain ⟨hp, hle, hsent, hlast⟩ := h
  unfold HistInv PendingInv at *
  cases e with
  | newHead n =>
    obtain ⟨hlt, hmono⟩ := hhead n rfl
    have hu : Uint64 n = n := uint64_of_lt n hlt
    cases hs : s.snapshot with
    | false =>
      simp [handle, hs, hu, requests, heads]
    | true =>
      have hh : handle s (Event.newHead n) =
          { state := { snapshot := true, pendingSnapshot := n, latestBlockNumber := n },
            ops := [], status := Status.running } := by
        cases s; simp_all [handle]
      rw [hh]
      simp only [requests, List.getLast?_nil, Option.none_or]
      refine ⟨fun _ => ⟨trivial, trivial⟩, ?_, fun _ => hsent hs, ?_⟩
      · intro x hx
        exact le_trans (hle x hx) hmono
      · intro _ hn0
        have hn0 : n = 0 := hn0
        subst hn0
        cases hl : ls with
        | none => exact absurd hl (hsent hs)
        | some x =>
          have hx := hle x hl
          have hx0 : x = 0 := by omega
          rw [hx0]
  | saved =>
    have hs := hsaved rfl
    by_cases hp0 : s.pendingSnapshot = 0
    · have hh : handle s Event.saved =
          { state := { s with snapshot := false }, ops := [Op.recv], status := Status.running } := by
        simp [handle, hp0]
      rw [hh]
      simp only [requests, heads, List.getLast?_nil, Option.none_or,
        List.isEmpty_nil, Bool.not_true, Bool.or_false]
      exact ⟨fun h => absurd hp0 h, hle, fun h => by simp at h, fun hseen _ => hlast hseen hp0⟩
    · obtain ⟨-, heq⟩ := hp hp0
      have hh : handle s Event.saved =
          { state := { s with pendingSnapshot := 0 },
            ops := [Op.recv, Op.send s.pendingSnapshot], status := Status.running } := by
        simp [handle, hp0]
      rw [hh]
      simp [requests, heq, hs]
  | subErr err =>
    simp only [handle, requests, heads, List.getLast?_nil, Option.none_or,
      List.isEmpty_nil, Bool.not_true, Bool.or_false]
    exact ⟨hp, hle, hsent, hlast⟩
  | done inFlight final => exact absurd rfl (hdone inFlight final)

theorem hist_loop (evs : List Event) : ∀ (s : Sched) (ls : Option Nat) (seen : Bool),
    HistInv s ls seen → steadyEvents s evs = true → (∀ n ∈ heads evs, n < 2 ^ 64) →
    List.Pairwise (fun a b => a ≤ b) (s.latestBlockNumber :: heads evs) →
    HistInv (loop s evs).state ((requests (loop s evs).ops).getLast?.or ls)
      (seen || !(heads evs).isEmpty) := by
  induction evs with
  | nil => intro s ls seen h _ _ _; simpa [loop, requests, heads] using h
  | cons e es ih =>
    intro s ls seen h hst hlt hmono
    have hr := steadyEvents_running s e es hst
    have hst2 : steadyEvents (handle s e).state es = true := by
      simp only [steadyEvents, Bool.and_eq_true] at hst; exact hst.2
    have hsaved : e = Event.saved → s.snapshot = true := by
      intro he; subst he
      simp only [steadyEvents, Bool.and_eq_true] at hst; exact hst.1
    have hdone : ∀ inFlight final, e ≠ Event.done inFlight final := by
      intro inFlight final he; subst he
      simp [steadyEvents] at hst
    have hhead : ∀ n, e = Event.newHead n → n < 2 ^ 64 ∧ s.latestBlockNumber ≤ n := by
      intro n he; subst he
      refine ⟨hlt n (by simp [heads]), ?_⟩
      simp only [heads, List.pairwise_cons] at hmono
      exact hmono.1 n (by simp)
    have hstep := hist_step s ls seen e h hsaved hdone hhead
    have hlt2 : ∀ n ∈ heads es, n < 2 ^ 64 := by
      intro n hn
      apply hlt n
      cases e <;> simp [heads, hn]
    have hmono2 : List.Pairwise (fun a b => a ≤ b)
        ((handle s e).state.latestBlockNumber :: heads es) := by
      cases e with
      | newHead n =>
        have hu : Uint64 n = n := uint64_of_lt n (hhead n rfl).1
        have hl : (handle s (Event.newHead n)).state.latestBlockNumber = n := by
          cases hs : s.snapshot <;> simp [handle, hs, hu]
        rw [hl]
        simp only [heads] at hmono
        exact (List.pairwise_cons.mp hmono).2
      | saved =>
        have hl : (handle s Event.saved).state.latestBlockNumber = s.latestBlockNumber := by
          by_cases hp : s.pendingSnapshot = 0 <;> simp [handle, hp]
        rw [hl]; simpa [heads] using hmono
      | subErr err => simpa [handle, heads] using hmono
      | done inFlight final => exact absurd rfl (hdone inFlight final)
    have hfin := ih _ _ _ hstep hst2 hlt2 hmono2
    rw [loop_cons_state s e es hr, loop_cons_ops s e es hr, requests_append,
      List.getLast?_append, Option.or_assoc]
    have hseen : (seen || !(heads (e :: es)).isEmpty) =
        ((seen || !(heads [e]).isEmpty) || !(heads es).isEmpty) := by
      cases e <;> cases seen <;> simp [heads]
    rw [hseen]
    exact hfin

theorem loop_steady_running (evs : List Event) : ∀ s : Sched,
    steadyEvents s evs = true → (loop s evs).status = Status.running := by
  induction evs with
  | nil => intro _ _; rfl
  | cons e es ih =>
    intro s hst
    have hr := steadyEvents_running s e es hst
    rw [loop_cons_status s e es hr]
    apply ih
    simp only [steadyEvents, Bool.and_eq_true] at hst
    exact hst.2

theorem table_step (s : Sched) (r : SchedulerState) (e : Event) (hrel : Related s r)
    (hsaved : e = Event.saved → s.snapshot = true) (hdone : ∀ inFlight final, e ≠ Event.done inFlight final)
    (hhead : ∀ n, e = Event.newHead n → 1 ≤ n ∧ n < 2 ^ 64) :
    ∃ t r2, e.toTable = some t ∧
      r.transition t = some (r2, requests (handle s e).ops) ∧
      Related (handle s e).state r2 := by
  rcases r with ⟨ph, fl, pd, lseen⟩
  rcases s with ⟨snap, pend, latest⟩
  cases e with
  | newHead n =>
    obtain ⟨hpos, hlt⟩ := hhead n rfl
    have hu : Uint64 n = n := uint64_of_lt n hlt
    have hn : n ≠ 0 := by omega
    refine ⟨TableEvent.ProgressEvent n, ?_⟩
    cases ph <;>
      simp_all [Related, Event.toTable, SchedulerState.transition, handle, requests]
  | saved =>
    have hs : snap = true := hsaved rfl
    refine ⟨TableEvent.WorkerCompleted, ?_⟩
    cases ph <;>
      simp_all [Related, Event.toTable, SchedulerState.transition, handle, requests]
  | subErr err =>
    refine ⟨TableEvent.SubscriptionError, _, rfl, rfl, ?_⟩
    simpa [handle] using hrel
  | done inFlight final => exact absurd rfl (hdone inFlight final)

theorem table_run (evs : List Event) : ∀ (s : Sched) (r : SchedulerState), Related s r →
    steadyEvents s evs = true → (∀ n ∈ heads evs, 1 ≤ n ∧ n < 2 ^ 64) →
    ∃ r2, r.run (evs.filterMap Event.toTable) = some (r2, requests (loop s evs).ops) ∧
      Related (loop s evs).state r2 := by
  induction evs with
  | nil => intro s r h _ _; exact ⟨r, by simp [SchedulerState.run, loop, requests], h⟩
  | cons e es ih =>
    intro s r hrel hst hnum
    have hr := steadyEvents_running s e es hst
    have hst2 : steadyEvents (handle s e).state es = true := by
      simp only [steadyEvents, Bool.and_eq_true] at hst; exact hst.2
    have hsaved : e = Event.saved → s.snapshot = true := by
      intro he; subst he
      simp only [steadyEvents, Bool.and_eq_true] at hst; exact hst.1
    have hdone : ∀ inFlight final, e ≠ Event.done inFlight final := by
      intro inFlight final he; subst he
      simp [steadyEvents] at hst
    have hhead : ∀ n, e = Event.newHead n → 1 ≤ n ∧ n < 2 ^ 64 := by
      intro n he; subst he
      exact hnum n (by simp [heads])
    have hnum2 : ∀ n ∈ heads es, 1 ≤ n ∧ n < 2 ^ 64 := by
      intro n hn
      apply hnum n
      cases e <;> simp [heads, hn]
    obtain ⟨t, r1, ht, htr, hrel1⟩ := table_step s r e hrel hsaved hdone hhead
    obtain ⟨r2, hrun, hrel2⟩ := ih _ r1 hrel1 hst2 hnum2
    refine ⟨r2, ?_, ?_⟩
    · rw [List.filterMap_cons, ht, loop_cons_ops s e es hr, requests_append]
      simp [SchedulerState.run, htr, hrun]
    · rw [loop_cons_state s e es hr]
      exact hrel2

theorem recover_priming (read : ReadResult) (bn : BlockNumberResult) (load : LoadResult)
    (priming : Capture) (h : read.err = true ∨ read.data.length = 0) :
    recover read bn load priming =
      if bn.err then { ops := [], panicked := true }
      else if priming.completes then
        { ops := [Op.send bn.blockNumber, Op.recv], panicked := false }
      else { ops := [Op.send bn.blockNumber], panicked := true } := by
  have hc : (decide (read.data.length = 0) || read.err) = true := by
    rcases h with h | h <;> simp [h]
  unfold recover
  rw [if_pos hc]

theorem recover_loading (read : ReadResult) (bn : BlockNumberResult) (load : LoadResult)
    (priming : Capture) (h1 : read.err = false) (h2 : read.data.length ≠ 0) :
    recover read bn load priming =
      if load.err then { ops := [], panicked := true }
      else if load.result then { ops := [], panicked := false }
      else { ops := [], panicked := true } := by
  have hc : ¬ (decide (read.data.length = 0) || read.err) = true := by
    simp [h1, h2]
  unfold recover
  rw [if_neg hc]

/-! ## Mutual exclusion -/

/-- C1 (mutual exclusion). For every event list in which worker completions
are delivered only while a request is outstanding (new-head events with any
numbers, subscription errors, an optional shutdown, whatever the capture
goroutine meets during it), run from the initial
variables with no outstanding request: every send on `snapshotCh` happens with
zero outstanding requests, every receive with exactly one, the count never
exceeds one, and at the top of every loop iteration the count is 1 when
`snapshot` is true and 0 otherwise. -/
theorem mutual_exclusion (evs : List Event)
    (hvalid : validEvents Sched.init 0 evs = true) :
    (∀ p ∈ annotate 0 (loop Sched.init evs).ops,
      (∀ n, p.2 = Op.send n → p.1 = 0) ∧ (p.2 = Op.recv → p.1 = 1) ∧
      p.1 ≤ 1 ∧ p.2.after p.1 ≤ 1) ∧
    (∀ q ∈ iterations Sched.init 0 evs, q.2 = if q.1.snapshot then 1 else 0) :=
  loop_countInv evs Sched.init 0 rfl hvalid

/-- Witness for C1: two heads, two completions, a head numbered 0 and a shutdown. -/
theorem mutual_exclusion_witness :
    validEvents Sched.init 0
      [.newHead 5, .newHead 6, .saved, .subErr "eof", .saved, .newHead 0,
        .done { dumpErr := false, writeErr := false } { dumpErr := false, writeErr := false }] = true ∧
    (∀ p ∈ annotate 0 (loop Sched.init
        [.newHead 5, .newHead 6, .saved, .subErr "eof", .saved, .newHead 0,
        .done { dumpErr := false, writeErr := false } { dumpErr := false, writeErr := false }]).ops,
      (∀ n, p.2 = Op.send n → p.1 = 0) ∧ (p.2 = Op.recv → p.1 = 1) ∧
      p.1 ≤ 1 ∧ p.2.after p.1 ≤ 1) ∧
    (∀ q ∈ iterations Sched.init 0
        [.newHead 5, .newHead 6, .saved, .subErr "eof", .saved, .newHead 0,
        .done { dumpErr := false, writeErr := false } { dumpErr := false, writeErr := false }],
      q.2 = if q.1.snapshot then 1 else 0) :=
  ⟨by decide, mutual_exclusion _ (by decide)⟩

/-! ## Shutdown -/

/-- C2, the claim as stated fails when a capture does not complete. After the
head 5 (a valid run), a shutdown whose final capture meets a dump error sends
the request 5 and never returns; one whose capture in flight meets a dump
error submits no further request at all. -/
theorem shutdown_capture_fails :
    validEvents Sched.init 0 [.newHead 5] = true ∧
    loop Sched.init [.newHead 5,
        .done { dumpErr := false, writeErr := false } { dumpErr := true, writeErr := false }] =
      { state := { snapshot := true, pendingSnapshot := 0, latestBlockNumber := 5 },
        ops := [Op.send 5, Op.recv, Op.send 5], status := Status.crashed } ∧
    loop Sched.init [.newHead 5,
        .done { dumpErr := true, writeErr := false } { dumpErr := false, writeErr := false }] =
      { state := { snapshot := true, pendingSnapshot := 0, latestBlockNumber := 5 },
        ops := [Op.send 5], status := Status.crashed } := by
  decide

/-- C2 amended (no loss at shutdown when the captures complete). After any
valid event list `evs` that has not ended the loop, `latestBlockNumber` is the
number of the last new-head event (0 when there was none) and the shutdown
iteration is the last one, whatever events follow. It waits for one completion
exactly when `snapshot` is true, and then one request is outstanding. If that
capture fails, nothing more is sent and the loop does not return. Otherwise
exactly one request is sent, carrying `latestBlockNumber`; the loop returns if
and only if the final capture completes as well, and then the last operation
is the receive of its completion, the last request is `latestBlockNumber` and
nothing is outstanding. No operation of the run overfills the request slot.
Shutdown while idle with `latestBlockNumber = 42` submits exactly the request
42. -/
theorem shutdown_no_loss (evs rest : List Event) (inFlight final : Capture)
    (hvalid : validEvents Sched.init 0 evs = true)
    (hrun : (loop Sched.init evs).status = Status.running) :
    (loop Sched.init evs).state.latestBlockNumber =
      ((heads evs).getLast?.map Uint64).getD 0 ∧
    countAfter 0 (loop Sched.init evs).ops =
      (if (loop Sched.init evs).state.snapshot then 1 else 0) ∧
    (loop Sched.init (evs ++ Event.done inFlight final :: rest)).ops =
      (loop Sched.init evs).ops ++
        (handle (loop Sched.init evs).state (Event.done inFlight final)).ops ∧
    (loop Sched.init (evs ++ Event.done inFlight final :: rest)).status =
      (handle (loop Sched.init evs).state (Event.done inFlight final)).status ∧
    ((loop Sched.init evs).state.snapshot = true → inFlight.completes = false →
      (handle (loop Sched.init evs).state (Event.done inFlight final)).ops = [] ∧
      (handle (loop Sched.init evs).state (Event.done inFlight final)).status =
        Status.crashed) ∧
    (((loop Sched.init evs).state.snapshot = true → inFlight.completes = true) →
      (handle (loop Sched.init evs).state (Event.done inFlight final)).ops =
        (if (loop Sched.init evs).state.snapshot then [Op.recv] else []) ++
          (Op.send (loop Sched.init evs).state.latestBlockNumber ::
            (if final.completes then [Op.recv] else [])) ∧
      requests (handle (loop Sched.init evs).state (Event.done inFlight final)).ops =
        [(loop Sched.init evs).state.latestBlockNumber] ∧
      (handle (loop Sched.init evs).state (Event.done inFlight final)).status =
        (if final.completes then Status.returned else Status.crashed)) ∧
    ((loop Sched.init (evs ++ Event.done inFlight final :: rest)).status = Status.returned ↔
      ((loop Sched.init evs).state.snapshot = true → inFlight.completes = true) ∧
        final.completes = true) ∧
    ((loop Sched.init (evs ++ Event.done inFlight final :: rest)).status = Status.returned →
      (loop Sched.init (evs ++ Event.done inFlight final :: rest)).ops.getLast? =
        some Op.recv ∧
      (requests (loop Sched.init (evs ++ Event.done inFlight final :: rest)).ops).getLast? =
        some (loop Sched.init evs).state.latestBlockNumber ∧
      countAfter 0 (loop Sched.init (evs ++ Event.done inFlight final :: rest)).ops = 0) ∧
    (∀ p ∈ annotate 0 (loop Sched.init (evs ++ Event.done inFlight final :: rest)).ops,
      (∀ n, p.2 = Op.send n → p.1 = 0) ∧ (p.2 = Op.recv → p.1 = 1) ∧
      p.1 ≤ 1 ∧ p.2.after p.1 ≤ 1) ∧
    (∀ p : Nat,
      requests (loop { snapshot := false, pendingSnapshot := p, latestBlockNumber := 42 }
        (Event.done inFlight final :: rest)).ops = [42]) := by
  obtain ⟨-, hops, hst⟩ := loop_append evs (Event.done inFlight final :: rest) Sched.init hrun
  have hd : ∀ s : Sched, loop s (Event.done inFlight final :: rest) =
      handle s (Event.done inFlight final) := fun s =>
    loop_cons_stopped s _ rest (handle_done_status s inFlight final)
  rw [hd] at hops hst
  have hc := loop_final_count evs Sched.init 0 rfl hvalid hrun
  unfold CountInv at hc
  rw [hops, hst]
  have hl := loop_latest evs Sched.init hrun
  have hinv := (loop_countInv evs Sched.init 0 rfl hvalid).1
  generalize (loop Sched.init evs).ops = ops0 at hc hinv ⊢
  generalize (loop Sched.init evs).state = s at hc hl ⊢
  refine ⟨by simpa [Sched.init] using hl, hc, rfl, rfl, ?_, ?_, ?_, ?_, ?_, ?_⟩
  · intro hs hi
    simp [handle, hs, hi]
  · intro h
    cases hs : s.snapshot <;> cases hf : final.completes <;>
      simp_all [handle, requests]
  · cases hs : s.snapshot <;> cases hi : inFlight.completes <;> cases hf : final.completes <;>
      simp [handle, hs, hi, hf]
  · intro hret
    rw [requests_append, countAfter_append, hc]
    revert hret
    cases hs : s.snapshot <;> cases hi : inFlight.completes <;> cases hf : final.completes <;>
      simp [handle, hs, hi, hf, requests, List.getLast?_append, countAfter, Op.after]
  · rw [annotate_append, hc]
    have hdone : ∀ p ∈ annotate (if s.snapshot then 1 else 0)
        (handle s (Event.done inFlight final)).ops, OpOk p := by
      cases hs : s.snapshot <;> cases hi : inFlight.completes <;>
        cases hf : final.completes <;>
        simp [handle, hs, hi, hf, annotate, Op.after, OpOk]
    intro p hp
    rcases List.mem_append.mp hp with hp | hp
    · exact hinv p hp
    · exact hdone p hp
  · intro p
    rw [hd]
    cases hf : final.completes <;> simp [handle, hf, requests]

/-- Witness for C2 amended: shutdown requested while a capture for 7 is in
flight and 9 is pending, both captures completing. -/
theorem shutdown_no_loss_witness :
    validEvents Sched.init 0 [.newHead 7, .newHead 9] = true ∧
    (loop Sched.init [.newHead 7, .newHead 9]).status = Status.running ∧
    (loop Sched.init ([.newHead 7, .newHead 9] ++
      Event.done { dumpErr := false, writeErr := false }
        { dumpErr := false, writeErr := false } :: [Event.saved])).ops =
      [Op.send 7, Op.recv, Op.send 9, Op.recv] :=
  ⟨by decide, by decide,
    (shutdown_no_loss [.newHead 7, .newHead 9] [Event.saved]
      { dumpErr := false, writeErr := false } { dumpErr := false, writeErr := false }
      (by decide) (by decide)).2.2.1.trans (by decide)⟩

/-! ## Subscription errors -/

/-- C9 (subscription error). For all loop variables and every error value, the
subscription-error iteration leaves `snapshot`, `pendingSnapshot` and
`latestBlockNumber` unchanged, sends no request, consumes no completion, does
not return, and the loop goes on with the remaining events. -/
theorem subscription_error_no_transition (s : Sched) (err : String) (es : List Event) :
    (handle s (Event.subErr err)).state = s ∧
    (handle s (Event.subErr err)).ops = [] ∧
    requests (handle s (Event.subErr err)).ops = [] ∧
    completions (handle s (Event.subErr err)).ops = 0 ∧
    (handle s (Event.subErr err)).status = Status.running ∧
    loop s (Event.subErr err :: es) = loop s es := by
  refine ⟨rfl, rfl, rfl, rfl, rfl, ?_⟩
  simp [loop, handle]

/-! ## Pending marker -/

/-- C10 (pending-marker invariant). At the top of every loop iteration of a run
from the initial variables, on any list of events, `pendingSnapshot ≠ 0`
implies `snapshot = true` and `pendingSnapshot = latestBlockNumber`; every
request the shutdown iteration then submits carries the number of the pending
marker, and it submits exactly that one request once the capture in flight has
completed. -/
theorem pending_marker_invariant (evs : List Event) (c : Nat) :
    ∀ q ∈ iterations Sched.init c evs, q.1.pendingSnapshot ≠ 0 →
      q.1.snapshot = true ∧ q.1.pendingSnapshot = q.1.latestBlockNumber ∧
      (∀ inFlight final : Capture, ∀ n ∈ requests (handle q.1 (Event.done inFlight final)).ops,
        n = q.1.pendingSnapshot) ∧
      (∀ inFlight final : Capture, inFlight.completes = true →
        requests (handle q.1 (Event.done inFlight final)).ops = [q.1.pendingSnapshot]) := by
  intro q hq hne
  have hinit : PendingInv Sched.init := by simp [PendingInv, Sched.init]
  obtain ⟨h1, h2⟩ := iterations_pendingInv evs Sched.init c hinit q hq hne
  refine ⟨h1, h2, ?_, ?_⟩
  · intro inFlight final n hn
    revert hn
    cases hi : inFlight.completes <;> cases hf : final.completes <;>
      simp [handle, h1, h2, hi, hf, requests]
  · intro inFlight final hi
    cases hf : final.completes <;> simp [handle, h1, h2, hi, hf, requests]

/-- Witness for C10: the state reached by heads 3 and 8 holds the marker 8. -/
theorem pending_marker_invariant_witness :
    (({ snapshot := true, pendingSnapshot := 8, latestBlockNumber := 8 } : Sched), 1) ∈
      iterations Sched.init 0 [.newHead 3, .newHead 8] ∧
    requests (handle { snapshot := true, pendingSnapshot := 8, latestBlockNumber := 8 }
      (Event.done { dumpErr := false, writeErr := false }
        { dumpErr := false, writeErr := true })).ops = [8] :=
  ⟨by decide,
    (pending_marker_invariant [.newHead 3, .newHead 8] 0
      ({ snapshot := true, pendingSnapshot := 8, latestBlockNumber := 8 }, 1)
      (by decide) (by decide)).2.2.2 _ _ rfl⟩

/-! ## Coalescing -/

/-- C3 (coalescing). With a capture in flight, a non-empty list `ns` of
new-head events whose numbers are uint64 values at least 1 submits no request
and leaves `pendingSnapshot` equal to the last number; the next worker
completion submits exactly one request, for that last number; the completion
after it submits nothing and clears `snapshot`. Heads 5, 6, 7 during a capture
give the single follow-up request 7; a head from idle followed by heads 10, 11,
12, 13 and two completions gives two requests, the second for 13. -/
theorem coalescing (s : Sched) (ns : List Nat) (hs : s.snapshot = true) (hne : ns ≠ [])
    (hns : ∀ n ∈ ns, 1 ≤ n ∧ n < 2 ^ 64) :
    (loop s (ns.map Event.newHead)).ops = [] ∧
    (loop s (ns.map Event.newHead)).state =
      { snapshot := true, pendingSnapshot := ns.getLast hne,
        latestBlockNumber := ns.getLast hne } ∧
    handle (loop s (ns.map Event.newHead)).state Event.saved =
      { state := { snapshot := true, pendingSnapshot := 0,
                   latestBlockNumber := ns.getLast hne },
        ops := [Op.recv, Op.send (ns.getLast hne)], status := Status.running } ∧
    handle { snapshot := true, pendingSnapshot := 0, latestBlockNumber := ns.getLast hne }
        Event.saved =
      { state := { snapshot := false, pendingSnapshot := 0,
                   latestBlockNumber := ns.getLast hne },
        ops := [Op.recv], status := Status.running } ∧
    loop s (ns.map Event.newHead ++ [Event.saved, Event.saved]) =
      { state := { snapshot := false, pendingSnapshot := 0,
                   latestBlockNumber := ns.getLast hne },
        ops := [Op.recv, Op.send (ns.getLast hne), Op.recv], status := Status.running } ∧
    (∀ p l : Nat,
      requests (loop { snapshot := true, pendingSnapshot := p, latestBlockNumber := l }
        [.newHead 5, .newHead 6, .newHead 7, .saved, .saved]).ops = [7]) ∧
    (∀ n0 : Nat,
      requests (loop Sched.init
        [.newHead n0, .newHead 10, .newHead 11, .newHead 12, .newHead 13,
          .saved, .saved]).ops = [Uint64 n0, 13]) := by
  have hlast : ns.getLast? = some (ns.getLast hne) := List.getLast?_eq_getLast ns hne
  have hbound := hns (ns.getLast hne) (List.getLast_mem hne)
  have hpos : ns.getLast hne ≠ 0 := by omega
  have hrun := loop_heads_in_flight ns s hs
  simp only [hlast, Option.map_some', Option.getD_some, uint64_of_lt _ hbound.2] at hrun
  have h1 : handle { snapshot := true, pendingSnapshot := ns.getLast hne,
                     latestBlockNumber := ns.getLast hne } Event.saved =
      { state := { snapshot := true, pendingSnapshot := 0,
                   latestBlockNumber := ns.getLast hne },
        ops := [Op.recv, Op.send (ns.getLast hne)], status := Status.running } := by
    simp [handle, hpos]
  have h2 : handle { snapshot := true, pendingSnapshot := 0,
                     latestBlockNumber := ns.getLast hne } Event.saved =
      { state := { snapshot := false, pendingSnapshot := 0,
                   latestBlockNumber := ns.getLast hne },
        ops := [Op.recv], status := Status.running } := by
    simp [handle]
  refine ⟨by rw [hrun], by rw [hrun], by rw [hrun]; exact h1, h2, ?_, ?_, ?_⟩
  · obtain ⟨a, b, c⟩ := loop_append (ns.map Event.newHead) [Event.saved, Event.saved] s
      (by rw [hrun])
    rw [hrun] at a b c
    have hl : loop { snapshot := true, pendingSnapshot := ns.getLast hne,
                     latestBlockNumber := ns.getLast hne } [Event.saved, Event.saved] =
        { state := { snapshot := false, pendingSnapshot := 0,
                     latestBlockNumber := ns.getLast hne },
          ops := [Op.recv, Op.send (ns.getLast hne), Op.recv], status := Status.running } := by
      simp [loop, h1, h2]
    rw [hl] at a b c
    cases hx : loop s (ns.map Event.newHead ++ [Event.saved, Event.saved])
    rw [hx] at a b c
    simp_all
  · intro p l
    simp [loop, handle, requests, Uint64]
  · intro n0
    simp [loop, handle, requests, Uint64, Sched.init]

/-- Witness for C3: heads 5, 6, 7 while the capture for 4 is in flight. -/
theorem coalescing_witness :
    loop { snapshot := true, pendingSnapshot := 0, latestBlockNumber := 4 }
        ([5, 6, 7].map Event.newHead ++ [Event.saved, Event.saved]) =
      { state := { snapshot := false, pendingSnapshot := 0, latestBlockNumber := 7 },
        ops := [Op.recv, Op.send 7, Op.recv], status := Status.running } :=
  (coalescing { snapshot := true, pendingSnapshot := 0, latestBlockNumber := 4 } [5, 6, 7]
    rfl (by decide) (by decide)).2.2.2.2.1

/-! ## Pending marker of one event -/

/-- C4 at the failing input: a head numbered 0 arriving during the capture for
7 leaves `pendingSnapshot = 0`, and the next worker completion submits no
request and clears `snapshot`, whereas the head 0 arriving while idle and the
shutdown with `latestBlockNumber = 0` both submit the request 0, and the head
1 arriving during the same capture gets its follow-up request. -/
theorem head_in_flight_zero_dropped :
    (handle { snapshot := true, pendingSnapshot := 0, latestBlockNumber := 7 }
      (Event.newHead 0)).state =
      { snapshot := true, pendingSnapshot := 0, latestBlockNumber := 0 } ∧
    handle (handle { snapshot := true, pendingSnapshot := 0, latestBlockNumber := 7 }
      (Event.newHead 0)).state Event.saved =
      { state := { snapshot := false, pendingSnapshot := 0, latestBlockNumber := 0 },
        ops := [Op.recv], status := Status.running } ∧
    requests (loop { snapshot := true, pendingSnapshot := 0, latestBlockNumber := 7 }
      [Event.newHead 0, Event.saved]).ops = [] ∧
    requests (loop { snapshot := true, pendingSnapshot := 0, latestBlockNumber := 7 }
      [Event.newHead 1, Event.saved]).ops = [1] ∧
    requests (handle { snapshot := false, pendingSnapshot := 0, latestBlockNumber := 7 }
      (Event.newHead 0)).ops = [0] ∧
    requests (handle { snapshot := false, pendingSnapshot := 0, latestBlockNumber := 0 }
      (Event.done { dumpErr := false, writeErr := false }
        { dumpErr := false, writeErr := false })).ops = [0] := by
  decide

/-! ## Steady state -/

/-- C6 (latest number not lost). Take any list of new-head events, worker
completions delivered only while `snapshot` is true, and subscription errors,
whose header numbers are uint64 values in non-decreasing order. After any
prefix `pre` of it that contains a new-head event and leaves `snapshot` false,
the most recently submitted request carries `latestBlockNumber`, which is the
number of the last new-head event handled. -/
theorem latest_not_lost (pre suf : List Event)
    (hsteady : steadyEvents Sched.init (pre ++ suf) = true)
    (hnum : ∀ n ∈ heads (pre ++ suf), n < 2 ^ 64)
    (hmono : List.Pairwise (fun a b => a ≤ b) (heads (pre ++ suf)))
    (hseen : heads pre ≠ [])
    (hidle : (loop Sched.init pre).state.snapshot = false) :
    (requests (loop Sched.init pre).ops).getLast? =
      some (loop Sched.init pre).state.latestBlockNumber ∧
    (heads pre).getLast? = some (loop Sched.init pre).state.latestBlockNumber := by
  have hst := steadyEvents_prefix pre suf Sched.init hsteady
  rw [heads_append] at hnum hmono
  have hnum1 : ∀ n ∈ heads pre, n < 2 ^ 64 := fun n hn =>
    hnum n (List.mem_append.mpr (Or.inl hn))
  have hmono1 : List.Pairwise (fun a b => a ≤ b)
      (Sched.init.latestBlockNumber :: heads pre) := by
    refine List.pairwise_cons.mpr ⟨fun a _ => Nat.zero_le a, ?_⟩
    exact (List.pairwise_append.mp hmono).1
  have hinit : HistInv Sched.init none false := by
    simp [HistInv, PendingInv, Sched.init]
  obtain ⟨hp, -, -, hlast⟩ := hist_loop pre Sched.init none false hinit hst hnum1 hmono1
  have hp0 : (loop Sched.init pre).state.pendingSnapshot = 0 := by
    by_contra hne
    have := (hp hne).1
    rw [hidle] at this
    cases this
  have hnonempty : (false || !(heads pre).isEmpty) = true := by
    cases hh : heads pre with
    | nil => exact absurd hh hseen
    | cons a l => rfl
  refine ⟨by simpa using hlast hnonempty hp0, ?_⟩
  have hret : (loop Sched.init pre).status = Status.running := loop_steady_running pre Sched.init hst
  have hl := loop_latest pre Sched.init hret
  rw [hl]
  obtain ⟨x, hx⟩ : ∃ x, (heads pre).getLast? = some x := by
    cases hh : (heads pre).getLast? with
    | none => exact absurd (List.getLast?_eq_none_iff.mp hh) hseen
    | some x => exact ⟨x, rfl⟩
  rw [hx]
  have hxlt : x < 2 ^ 64 := hnum1 x (List.mem_of_getLast?_eq_some hx)
  simp [uint64_of_lt x hxlt]

/-- Witness for C6: heads 5, 5, 8 with completions, idle at the end. -/
theorem latest_not_lost_witness :
    (requests (loop Sched.init
      [.newHead 5, .newHead 5, .saved, .newHead 8, .saved, .saved]).ops).getLast? =
      some (loop Sched.init
        [.newHead 5, .newHead 5, .saved, .newHead 8, .saved, .saved]).state.latestBlockNumber ∧
    (loop Sched.init
      [.newHead 5, .newHead 5, .saved, .newHead 8, .saved, .saved]).state.latestBlockNumber = 8 :=
  ⟨(latest_not_lost [.newHead 5, .newHead 5, .saved, .newHead 8, .saved, .saved]
      [.newHead 9] (by decide) (by decide) (by decide) (by decide) (by decide)).1,
    by decide⟩

/-! ## Refinement of the transition table -/

/-- C5 (refinement). Take any list of new-head events with uint64 numbers at
least 1, worker completions delivered only while `snapshot` is true, and
subscription errors. After every prefix `pre` of it the reference machine of
the transition table, run from `Idle` on the same events, has a row for every
event, has submitted the same sequence of request numbers as the loop, and is
related to the loop variables: `Idle` with `snapshot = false`, `Capturing`
with `snapshot = true` and `pendingSnapshot = 0`, `CapturingWithPending` with
`snapshot = true`, `pendingSnapshot ≠ 0` and `pending = some pendingSnapshot`,
and `latestSeen = latestBlockNumber`. -/
theorem loop_refines_table (pre suf : List Event)
    (hsteady : steadyEvents Sched.init (pre ++ suf) = true)
    (hnum : ∀ n ∈ heads (pre ++ suf), 1 ≤ n ∧ n < 2 ^ 64) :
    ∃ r : SchedulerState,
      SchedulerState.initial.run (pre.filterMap Event.toTable) =
        some (r, requests (loop Sched.init pre).ops) ∧
      Related (loop Sched.init pre).state r := by
  have hst := steadyEvents_prefix pre suf Sched.init hsteady
  have hnum1 : ∀ n ∈ heads pre, 1 ≤ n ∧ n < 2 ^ 64 := by
    intro n hn
    apply hnum n
    rw [heads_append]
    exact List.mem_append.mpr (Or.inl hn)
  have hinit : Related Sched.init SchedulerState.initial := by
    simp [Related, Sched.init, SchedulerState.initial]
  exact table_run pre Sched.init SchedulerState.initial hinit hst hnum1

/-- Witness for C5: events 1, 2 while idle then capturing, then the completion
for 1: requests 1 and 2 are submitted, by the loop and by the table. -/
theorem loop_refines_table_witness :
    requests (loop Sched.init [.newHead 1, .newHead 2, .saved]).ops = [1, 2] ∧
    ∃ r : SchedulerState,
      SchedulerState.initial.run ([.newHead 1, .newHead 2, .saved].filterMap Event.toTable) =
        some (r, requests (loop Sched.init [.newHead 1, .newHead 2, .saved]).ops) ∧
      Related (loop Sched.init [.newHead 1, .newHead 2, .saved]).state r :=
  ⟨by decide,
    loop_refines_table [.newHead 1, .newHead 2, .saved] [.subErr "closed", .saved]
      (by decide) (by decide)⟩

/-! ## Startup recovery -/

/-- C7, the claim as stated fails: with no state file and the current block
number 17, a write error in the priming capture leaves the request 17 sent and
its completion never consumed, and startup panics without entering the loop;
and when the block-number query itself fails, the read has failed but no
request is submitted. -/
theorem startup_priming_fails :
    startup { data := [], err := true } { blockNumber := 17, err := false }
        { result := false, err := false } { dumpErr := false, writeErr := true } false =
      Startup.panicked [Op.send 17] ∧
    startup { data := [], err := true } { blockNumber := 0, err := true }
        { result := false, err := false } { dumpErr := false, writeErr := false } false =
      Startup.panicked [] := by
  decide

/-- C7 amended (startup recovery decision). The block number is queried, and a
priming request submitted if the query succeeds, if and only if the read fails
or returns zero bytes: a request is submitted during startup exactly when the
read fails or returns zero bytes and the block-number query succeeds. It is
then the only request and carries the current block number. If its capture
completes, its completion is consumed before the subscription is opened and
the loop, when the subscription succeeds, starts with the zero variables and
no outstanding request; if its capture fails, or the block-number query fails,
startup panics and the loop is not entered. When the read returns non-empty
bytes and the load call returns true without error, startup performs no
channel operation and the loop starts with the zero variables. Whenever the
loop is entered, it starts with the zero variables and nothing outstanding. -/
theorem startup_priming_decision (read : ReadResult) (bn : BlockNumberResult)
    (load : LoadResult) (priming : Capture) (subscribeErr : Bool) :
    (requests (startup read bn load priming subscribeErr).ops ≠ [] ↔
      ((read.err = true ∨ read.data.length = 0) ∧ bn.err = false)) ∧
    ((read.err = true ∨ read.data.length = 0) → bn.err = false →
      requests (startup read bn load priming subscribeErr).ops = [bn.blockNumber] ∧
      (priming.completes = true →
        (startup read bn load priming subscribeErr).ops =
          [Op.send bn.blockNumber, Op.recv] ∧
        countAfter 0 (startup read bn load priming subscribeErr).ops = 0 ∧
        (subscribeErr = false →
          startup read bn load priming subscribeErr =
            Startup.running [Op.send bn.blockNumber, Op.recv]
              { snapshot := false, pendingSnapshot := 0, latestBlockNumber := 0 })) ∧
      (priming.completes = false →
        startup read bn load priming subscribeErr =
          Startup.panicked [Op.send bn.blockNumber])) ∧
    ((read.err = true ∨ read.data.length = 0) → bn.err = true →
      startup read bn load priming subscribeErr = Startup.panicked []) ∧
    (read.err = false → read.data.length ≠ 0 → load.err = false → load.result = true →
      (startup read bn load priming subscribeErr).ops = [] ∧
      (subscribeErr = false →
        startup read bn load priming subscribeErr =
          Startup.running []
            { snapshot := false, pendingSnapshot := 0, latestBlockNumber := 0 })) ∧
    (∀ ops s, startup read bn load priming subscribeErr = Startup.running ops s →
      s = { snapshot := false, pendingSnapshot := 0, latestBlockNumber := 0 } ∧
      countAfter 0 ops = 0) := by
  by_cases h : read.err = true ∨ read.data.length = 0
  · have hrec := recover_priming read bn load priming h
    refine ⟨?_, ?_, ?_, ?_, ?_⟩
    · simp only [startup, hrec, h, true_and]
      cases bn.err <;> cases priming.completes <;> cases subscribeErr <;>
        simp [Startup.ops, requests]
    · intro _ hbn
      simp only [startup, hrec, hbn]
      cases priming.completes <;> cases subscribeErr <;>
        simp [Startup.ops, requests, countAfter, Op.after, Sched.init]
    · intro _ hbn
      simp [startup, hrec, hbn]
    · intro h1 h2
      rcases h with h | h
      · rw [h1] at h; cases h
      · exact absurd h h2
    · intro ops s
      simp only [startup, hrec]
      cases bn.err <;> cases priming.completes <;> cases subscribeErr <;>
        simp [Sched.init]
      rintro rfl rfl
      simp [countAfter, Op.after]
  · have h1 : read.err = false := by
      cases hr : read.err
      · rfl
      · exact absurd (Or.inl hr) h
    have h2 : read.data.length ≠ 0 := fun h0 => h (Or.inr h0)
    have hrec := recover_loading read bn load priming h1 h2
    refine ⟨?_, fun h' => absurd h' h, fun h' => absurd h' h, ?_, ?_⟩
    · simp only [startup, hrec, h, false_and, iff_false, not_not]
      cases load.err <;> cases load.result <;> cases subscribeErr <;>
        simp [Startup.ops, requests]
    · intro _ _ h3 h4
      simp only [startup, hrec, h3, h4]
      cases subscribeErr <;> simp [Startup.ops, Sched.init]
    · intro ops s
      simp only [startup, hrec]
      cases load.err <;> cases load.result <;> cases subscribeErr <;>
        simp [Sched.init]
      rintro rfl rfl
      simp [countAfter]

/-- Witness for C7 amended: no state file (the read fails), current block
number 17, the priming capture completes. -/
theorem startup_priming_decision_witness :
    startup { data := [], err := true } { blockNumber := 17, err := false }
        { result := false, err := false } { dumpErr := false, writeErr := false } false =
      Startup.running [Op.send 17, Op.recv]
        { snapshot := false, pendingSnapshot := 0, latestBlockNumber := 0 } :=
  ((startup_priming_decision { data := [], err := true } { blockNumber := 17, err := false }
    { result := false, err := false } { dumpErr := false, writeErr := false } false).2.1
      (Or.inl rfl) rfl).2.1 rfl |>.2.2 rfl

/-- C8 (rejected load is fatal, absent data is not). When the read succeeds
with non-empty bytes and the load call returns an error or returns false,
startup panics without any channel operation, so no priming request is
submitted and the loop is not entered. When the read fails or returns no
bytes, startup takes the priming branch, with the same outcome whatever the
read returned and whatever the load call would return: the block number is
queried and, if the query succeeds, the priming request is submitted; startup
then fails only if the block-number query, the priming capture or the
subscription fails, and otherwise enters the loop after the priming capture. -/
theorem rejected_load_fatal (read : ReadResult) (bn : BlockNumberResult)
    (load : LoadResult) (priming : Capture) (subscribeErr : Bool) :
    (read.err = false → read.data.length ≠ 0 → (load.err = true ∨ load.result = false) →
      startup read bn load priming subscribeErr = Startup.panicked [] ∧
      (startup read bn load priming subscribeErr).failed = true ∧
      requests (startup read bn load priming subscribeErr).ops = [] ∧
      ∀ ops s, startup read bn load priming subscribeErr ≠ Startup.running ops s) ∧
    ((read.err = true ∨ read.data.length = 0) →
      (∀ (read2 : ReadResult) (load2 : LoadResult),
        (read2.err = true ∨ read2.data.length = 0) →
        startup read bn load priming subscribeErr =
          startup read2 bn load2 priming subscribeErr) ∧
      (startup read bn load priming subscribeErr).failed =
        (bn.err || !priming.completes || subscribeErr) ∧
      (bn.err = false →
        requests (startup read bn load priming subscribeErr).ops = [bn.blockNumber]) ∧
      (bn.err = false → priming.completes = true → subscribeErr = false →
        startup read bn load priming subscribeErr =
          Startup.running [Op.send bn.blockNumber, Op.recv]
            { snapshot := false, pendingSnapshot := 0, latestBlockNumber := 0 })) := by
  refine ⟨?_, ?_⟩
  · intro h1 h2 h3
    have hp : startup read bn load priming subscribeErr = Startup.panicked [] := by
      simp only [startup, recover_loading read bn load priming h1 h2]
      rcases h3 with h3 | h3
      · simp [h3]
      · cases load.err <;> simp [h3]
    rw [hp]
    exact ⟨rfl, rfl, rfl, fun ops s h => by cases h⟩
  · intro h
    refine ⟨?_, ?_⟩
    · intro read2 load2 h2
      simp only [startup, recover_priming read bn load priming h,
        recover_priming read2 bn load2 priming h2]
    · simp only [startup, recover_priming read bn load priming h]
      cases bn.err <;> cases priming.completes <;> cases subscribeErr <;>
        simp [Startup.ops, Startup.failed, Sched.init, requests]

/-- Witness for C8: a non-empty state file that the load call rejects. -/
theorem rejected_load_fatal_witness :
    startup { data := [123, 125], err := false } { blockNumber := 17, err := false }
        { result := false, err := false } { dumpErr := false, writeErr := false } false =
      Startup.panicked [] :=
  ((rejected_load_fatal { data := [123, 125], err := false } { blockNumber := 17, err := false }
    { result := false, err := false } { dumpErr := false, writeErr := false } false).1
      rfl (by decide) (Or.inr rfl)).1

end AnvilPersistence
